import Mathlib

/-!
# Build-baron ticket filing (`plugin/builtin/buildbaron/tickets.go`)

A shallow embedding of the ticket-filing adapter: path cleaning, summary and
description rendering, history links, and the `fileTicket` HTTP handler, with
the properties of each.

Go strings are byte sequences; they are embedded as lists of byte values.
Every result below holds for arbitrary lists, hence for all byte strings.
-/

set_option autoImplicit false
set_option linter.dupNamespace false

namespace BuildBaron

/-! ## Strings -/

/-- A Go string: its sequence of bytes. -/
abbrev GoString := List Nat

/-- The bytes of a literal written with ASCII characters only. -/
def ascii (s : String) : GoString := s.data.map Char.toNat

/-- The byte `/`. -/
abbrev slash : Nat := 47

/-- The byte `\`. -/
abbrev backslash : Nat := 92

/-- Go `strings.LastIndex(s, sep)` for a one-byte separator: the index of the
last occurrence of `c` in `s`, or `-1` when there is none. -/
def lastIndex (c : Nat) : GoString → Int
  | [] => -1
  | b :: bs =>
    if lastIndex c bs ≠ -1 then lastIndex c bs + 1
    else if b = c then 0 else -1

/-- Go `strings.Join(elems, sep)`. -/
def join (sep : GoString) : List GoString → GoString
  | [] => []
  | [x] => x
  | x :: y :: rest => x ++ sep ++ join sep (y :: rest)

/-- Go `fmt.Sprintf` for formats whose only verb is `%v`, applied to string
operands (a string operand prints as itself; an `error` operand is passed as
its `Error()` text). Missing operands print as `%!v(MISSING)`; operands left
over are reported after the text as `%!(EXTRA string=..., ...)`. Every format
in `tickets.go` is of this kind. -/
def sprintf : GoString → List GoString → GoString
  | [], [] => []
  | [], a :: as =>
    ascii "%!(EXTRA " ++ join (ascii ", ") ((a :: as).map (fun x => ascii "string=" ++ x))
      ++ ascii ")"
  | [b], args => b :: sprintf [] args
  | b :: b' :: rest, args =>
    if b = 37 ∧ b' = 118 then
      match args with
      | [] => ascii "%!v(MISSING)" ++ sprintf rest []
      | a :: as => a ++ sprintf rest as
    else b :: sprintf (b' :: rest) args

/-! ## Data model -/

/-- The fields of `task.TestResult` read by the adapter. -/
structure TestResult where
  TestFile : GoString
  URL : GoString
  deriving DecidableEq, Repr

/-- The fields of `task.Task` read by the adapter. -/
structure Task where
  Id : GoString
  Execution : Int
  DisplayName : GoString
  BuildVariant : GoString
  Project : GoString
  HostId : GoString
  TestResults : List TestResult
  deriving DecidableEq, Repr

/-- The fields of `host.Host` read by the adapter. -/
structure Host where
  Id : GoString
  Host : GoString
  deriving DecidableEq, Repr

/-- The required fields for generating a failure report. -/
structure jiraTestFailure where
  Name : GoString
  URL : GoString
  HistoryURL : GoString
  deriving DecidableEq, Repr

/-- The constant `UIRoot`. -/
def UIRoot : GoString := ascii "https://evergreen.mongodb.com"

/-! ## Path cleaning -/

/-- The function `cleanTestName`: strip trailing separators, then keep the text
after the last `/`, or after the last `\` when the path has no `/`. -/
def cleanTestName (path : GoString) : GoString :=
  if lastIndex slash path ≠ -1 then
    if lastIndex slash path = (path.length : Int) - 1 then
      cleanTestName (path.take (path.length - 1))
    else path.drop (lastIndex slash path + 1).toNat
  else if lastIndex backslash path ≠ -1 then
    if lastIndex backslash path = (path.length : Int) - 1 then
      cleanTestName (path.take (path.length - 1))
    else path.drop (lastIndex backslash path + 1).toNat
  else path
termination_by path.length
decreasing_by
  all_goals
    simp only [List.length_take]
    cases path with
    | nil => simp [lastIndex] at *
    | cons b bs => simp

/-! ## History link and summary -/

/-- The function `historyURL`. -/
def historyURL (t : Task) (testName : GoString) : GoString :=
  sprintf (ascii "%v/task_history/%v/%v#%v=fail")
    [UIRoot, t.Project, t.DisplayName, testName]

/-- The function `getSummary`. -/
def getSummary (taskName : GoString) (tests : List jiraTestFailure) : GoString :=
  if tests.length = 0 then
    sprintf (ascii "%v failure") [taskName]
  else if tests.length > 4 then
    sprintf (ascii "%v failures") [taskName]
  else
    join (ascii ", ") (tests.foldl (fun names t => names ++ [t.Name]) [])

/-! ## Description template -/

/-- An error of `text/template` execution. -/
inductive TemplateError where
  | nilPointer (path : List String)
  | noField (path : List String)
  deriving DecidableEq, Repr

/-- A piece of the body of a `range` action: literal text, or a field of the
element the range is at. -/
inductive Inner where
  | text (s : GoString)
  | field (name : String)
  deriving DecidableEq, Repr

/-- A node of a parsed template: literal text, a field chain of the top-level
data, or a `range` over a field of the top-level data. -/
inductive Node where
  | text (s : GoString)
  | field (path : List String)
  | range (path : List String) (body : List Inner)
  deriving DecidableEq, Repr

/-- The constant `DescriptionTemplateString`, parsed: the value of
`DescriptionTemplate`. -/
def DescriptionTemplate : List Node :=
  [ .text (ascii "\nh2. ["), .field ["Task", "DisplayName"],
    .text (ascii " failed on "), .field ["Task", "BuildVariant"],
    .text (ascii "|" ++ UIRoot ++ ascii "/task/"), .field ["Task", "Id"],
    .text (ascii "/"), .field ["Task", "Execution"],
    .text (ascii "]\n\nHost: ["), .field ["Host", "Host"],
    .text (ascii "|" ++ UIRoot ++ ascii "/host/"), .field ["Host", "Id"],
    .text (ascii "]\nProject: ["), .field ["Task", "Project"],
    .text (ascii "|" ++ UIRoot ++ ascii "/waterfall/"), .field ["Task", "Project"],
    .text (ascii "]\n\n"),
    .range ["Tests"]
      [ .text (ascii "*"), .field "Name",
        .text (ascii "* - [Logs|"), .field "URL",
        .text (ascii "] | [History|"), .field "HistoryURL",
        .text (ascii "]\n\n") ],
    .text (ascii "\n\n\n~BF Ticket Generated by [~"), .field ["UserId"],
    .text (ascii "]~\n") ]

/-- The data `getDescription` hands to the template; `Task` and `Host` are
pointers, `none` being nil. -/
structure DescriptionArgs where
  Task : Option Task
  Host : Option Host
  UserId : GoString
  Tests : List jiraTestFailure

/-- The decimal text of a Go `int`, as the template prints it. -/
def formatInt (i : Int) : GoString := ascii (toString i)

/-- A printable field chain evaluated on the top-level data. A chain through
a nil pointer, or naming a field the data does not have, is an execution
error. -/
def evalField (args : DescriptionArgs) (path : List String) :
    Except TemplateError GoString :=
  match path with
  | ["UserId"] => .ok args.UserId
  | ["Task", f] =>
    match args.Task with
    | none => .error (.nilPointer path)
    | some t =>
      if f = "Id" then .ok t.Id
      else if f = "Execution" then .ok (formatInt t.Execution)
      else if f = "DisplayName" then .ok t.DisplayName
      else if f = "BuildVariant" then .ok t.BuildVariant
      else if f = "Project" then .ok t.Project
      else if f = "HostId" then .ok t.HostId
      else .error (.noField path)
  | ["Host", f] =>
    match args.Host with
    | none => .error (.nilPointer path)
    | some h =>
      if f = "Id" then .ok h.Id
      else if f = "Host" then .ok h.Host
      else .error (.noField path)
  | _ => .error (.noField path)

/-- A field of a `jiraTestFailure` element. -/
def evalTestField (x : jiraTestFailure) (name : String) : Except TemplateError GoString :=
  if name = "Name" then .ok x.Name
  else if name = "URL" then .ok x.URL
  else if name = "HistoryURL" then .ok x.HistoryURL
  else .error (.noField [name])

/-- The body of a `range` action executed at one element, appended to `buf`. -/
def execInner (x : jiraTestFailure) :
    List Inner → GoString → Except TemplateError GoString
  | [], buf => .ok buf
  | .text s :: rest, buf => execInner x rest (buf ++ s)
  | .field name :: rest, buf =>
    match evalTestField x name with
    | .error e => .error e
    | .ok v => execInner x rest (buf ++ v)

/-- A `range` action: its body executed at each element in order. -/
def execRange (body : List Inner) :
    List jiraTestFailure → GoString → Except TemplateError GoString
  | [], buf => .ok buf
  | x :: xs, buf =>
    match execInner x body buf with
    | .error e => .error e
    | .ok buf' => execRange body xs buf'

/-- Template execution: the nodes in order, output appended to `buf`. The only
collection the data has is `Tests`. -/
def execNodes (args : DescriptionArgs) :
    List Node → GoString → Except TemplateError GoString
  | [], buf => .ok buf
  | .text s :: rest, buf => execNodes args rest (buf ++ s)
  | .field path :: rest, buf =>
    match evalField args path with
    | .error e => .error e
    | .ok v => execNodes args rest (buf ++ v)
  | .range path body :: rest, buf =>
    if path = ["Tests"] then
      match execRange body args.Tests buf with
      | .error e => .error e
      | .ok buf' => execNodes args rest buf'
    else .error (.noField path)

/-- The function `getDescription`. -/
def getDescription (t : Option Task) (h : Option Host) (userId : GoString)
    (tests : List jiraTestFailure) : Except TemplateError GoString :=
  execNodes ⟨t, h, userId, tests⟩ DescriptionTemplate []

/-! ## The handler -/

/-- The authenticated user of a request. -/
structure User where
  Id : GoString
  deriving DecidableEq, Repr

/-- The decoded request body `input`. -/
structure Input where
  TaskId : GoString
  TestIds : List GoString
  deriving DecidableEq, Repr

/-- An HTTP request as the handler sees it: what `Decode` left in `input`
(possibly partly filled when decoding failed), the error `Decode` returned,
and the user `plugin.GetUser` finds. -/
structure Request where
  input : Input
  decodeErr : Option GoString
  user : Option User

/-- The JIRA API request laid out by the handler, one field per key of the
map: `project.key`, `summary`, the three custom fields, `issuetype.name`,
`assignee.name`, `reporter.name` and `description`. -/
structure JiraRequest where
  project : GoString
  summary : GoString
  failingTasks : List GoString
  failingVariant : List GoString
  evergreenProject : List GoString
  issuetype : GoString
  assignee : GoString
  reporter : GoString
  description : GoString
  deriving DecidableEq, Repr

/-- The created ticket returned by the tracker. -/
structure JiraTicket where
  Key : GoString
  deriving DecidableEq, Repr

/-- The collaborators of the handler: the task and host stores, the plugin
option `Projects[p].TicketCreateProject`, and the tracker's `CreateTicket`.
A lookup yields an error, nothing (nil), or the entity. -/
structure Env where
  findTask : GoString → Except GoString (Option Task)
  findHost : GoString → Except GoString (Option Host)
  ticketCreateProject : GoString → GoString
  createTicket : JiraRequest → Except GoString JiraTicket

/-- The data of a `util.WriteJSON` call. -/
inductive Payload where
  | text (s : GoString)
  | ticket (t : JiraTicket)
  deriving DecidableEq, Repr

/-- What the handler does to the outside, in order: store lookups
(`task.FindOne`, `host.FindOne`), tracker calls (`CreateTicket`) and
`util.WriteJSON` calls on the response writer. The calls are recorded with
their arguments, not interpreted. -/
inductive Effect where
  | findTask (id : GoString)
  | findHost (id : GoString)
  | createTicket (req : JiraRequest)
  | writeJSON (status : Nat) (data : Payload)
  deriving DecidableEq, Repr

/-- The constant `http.StatusOK`. -/
def StatusOK : Nat := 200
/-- The constant `http.StatusBadRequest`. -/
def StatusBadRequest : Nat := 400
/-- The constant `http.StatusUnauthorized`. -/
def StatusUnauthorized : Nat := 401
/-- The constant `http.StatusNotFound`. -/
def StatusNotFound : Nat := 404
/-- The constant `http.StatusInternalServerError`. -/
def StatusInternalServerError : Nat := 500

/-- The map `testIds` after the first loop of `fileTicket`: every requested id
is set to true, every other key reads false. -/
def testIdSet (ids : List GoString) : GoString → Bool :=
  ids.foldl (fun m testId => fun k => if k = testId then true else m k) (fun _ => false)

/-- The slice `tests` after the second loop of `fileTicket`. -/
def selectedFailures (t : Task) (ids : List GoString) : List jiraTestFailure :=
  t.TestResults.foldl
    (fun tests test =>
      if testIdSet ids test.TestFile then
        tests ++ [{ Name := cleanTestName test.TestFile,
                    URL := test.URL,
                    HistoryURL := historyURL t (cleanTestName test.TestFile) }]
      else tests)
    []

/-- The `Error()` text of a template error, shortened: the wording of
`text/template` is not reproduced. No property below depends on it, since
execution on a task and host that are not nil does not fail. -/
def TemplateError.text : TemplateError → GoString
  | .nilPointer _ => ascii "nil pointer evaluating field"
  | .noField _ => ascii "can't evaluate field"

/-- The JIRA API request `fileTicket` lays out for task `t`, user `u`, the
selected failures and the rendered description. -/
def layoutRequest (env : Env) (t : Task) (u : User) (tests : List jiraTestFailure)
    (description : GoString) : JiraRequest :=
  { project := env.ticketCreateProject t.Project,
    summary := getSummary t.DisplayName tests,
    failingTasks := [t.DisplayName],
    failingVariant := [t.BuildVariant],
    evergreenProject := [t.Project],
    issuetype := ascii "Build Failure",
    assignee := u.Id,
    reporter := u.Id,
    description := description }

/-- The handler `fileTicket`, as the sequence of its effects. After a decode
failure the handler writes a response and goes on (there is no `return` in
that branch); every other error branch writes and returns. Logging through
`grip` is left out. -/
def fileTicket (env : Env) (r : Request) : List Effect :=
  let w : List Effect :=
    match r.decodeErr with
    | some e => [.writeJSON StatusInternalServerError (.text e)]
    | none => []
  match r.user with
  | none =>
    w ++ [.writeJSON StatusUnauthorized (.text (ascii "must be logged in to file a ticket"))]
  | some u =>
    let w := w ++ [.findTask r.input.TaskId]
    match env.findTask r.input.TaskId with
    | .error e => w ++ [.writeJSON StatusInternalServerError (.text e)]
    | .ok none =>
      w ++ [.writeJSON StatusNotFound
        (.text (sprintf (ascii "task not found for id %v") [r.input.TaskId]))]
    | .ok (some t) =>
      let w := w ++ [.findHost t.HostId]
      match env.findHost t.HostId with
      | .error e => w ++ [.writeJSON StatusInternalServerError (.text e)]
      | .ok none =>
        w ++ [.writeJSON StatusInternalServerError
          (.text (sprintf (ascii "host not found for task id %v with host id: %v")
            [r.input.TaskId, t.HostId]))]
      | .ok (some h) =>
        let tests := selectedFailures t r.input.TestIds
        match getDescription (some t) (some h) u.Id tests with
        | .error e =>
          w ++ [.writeJSON StatusBadRequest
            (.text (sprintf (ascii "error creating description: %v") [e.text]))]
        | .ok description =>
          let request := layoutRequest env t u tests description
          let w := w ++ [.createTicket request]
          match env.createTicket request with
          | .error e =>
            w ++ [.writeJSON StatusBadRequest
              (.text (sprintf (ascii "error creating JIRA ticket: %v") [e]))]
          | .ok result => w ++ [.writeJSON StatusOK (.ticket result)]

/-- The status code the client receives. `util.WriteJSON` sets the status
through `WriteHeader` on the response writer, and on an `http.ResponseWriter`
only the first `WriteHeader` takes effect: the status of the response is the
one of the first `util.WriteJSON` call. -/
def responseStatus : List Effect → Option Nat
  | [] => none
  | .writeJSON status _ :: _ => some status
  | _ :: rest => responseStatus rest

/-- The `util.WriteJSON` calls made, in order. -/
def responsesWritten : List Effect → List (Nat × Payload)
  | [] => []
  | .writeJSON status data :: rest => (status, data) :: responsesWritten rest
  | _ :: rest => responsesWritten rest

/-- The tickets the tracker was asked to create. -/
def ticketsCreated : List Effect → List JiraRequest
  | [] => []
  | .createTicket req :: rest => req :: ticketsCreated rest
  | _ :: rest => ticketsCreated rest

/-- The store lookups made. -/
def lookupsMade : List Effect → List Effect
  | [] => []
  | .findTask id :: rest => .findTask id :: lookupsMade rest
  | .findHost id :: rest => .findHost id :: lookupsMade rest
  | _ :: rest => lookupsMade rest

/-- The response written for a failed decode, if any: the first thing
`fileTicket` does. -/
def decodeWrites (r : Request) : List Effect :=
  match r.decodeErr with
  | some e => [.writeJSON StatusInternalServerError (.text e)]
  | none => []

/-! ## Sample collaborators -/

/-- Stores that know no task and no host; the tracker accepts every request. -/
def emptyEnv : Env :=
  { findTask := fun _ => .ok none,
    findHost := fun _ => .ok none,
    ticketCreateProject := fun _ => ascii "BF",
    createTicket := fun _ => .ok ⟨ascii "BF-1"⟩ }

/-- A task with two test results that ran on host `h1`. -/
def sampleTask : Task :=
  { Id := ascii "t1", Execution := 0, DisplayName := ascii "compile",
    BuildVariant := ascii "linux", Project := ascii "mci", HostId := ascii "h1",
    TestResults := [⟨ascii "jstests/a.js", ascii "log/a"⟩, ⟨ascii "jstests/b.js", ascii "log/b"⟩] }

/-- Stores that hold `sampleTask` and its host; the tracker accepts every
request. -/
def sampleEnv : Env :=
  { findTask := fun id => if id = ascii "t1" then .ok (some sampleTask) else .ok none,
    findHost := fun id => if id = ascii "h1" then .ok (some ⟨ascii "h1", ascii "host1"⟩)
      else .ok none,
    ticketCreateProject := fun _ => ascii "BF",
    createTicket := fun _ => .ok ⟨ascii "BF-1"⟩ }

/-- A request of user `u` for task `t1` whose body failed to decode after the
task id was read (the body `{"task":"t1","tests":5}`). -/
def badBodyRequest : Request :=
  { input := ⟨ascii "t1", []⟩,
    decodeErr := some (ascii "json: cannot unmarshal number into Go value of type []string"),
    user := some ⟨ascii "u"⟩ }

/-- A request without a user whose body failed to decode. -/
def anonymousBadRequest : Request :=
  { input := ⟨[], []⟩, decodeErr := some (ascii "EOF"), user := none }

/-- A request of user `u` that selects `jstests/b.js` twice and a test the
task does not have. -/
def sampleRequest : Request :=
  { input := ⟨ascii "t1", [ascii "jstests/b.js", ascii "nope.js", ascii "jstests/b.js"]⟩,
    decodeErr := none,
    user := some ⟨ascii "u"⟩ }

/-! ## Facts about `lastIndex` -/

theorem lastIndex_of_not_mem (c : Nat) (s : GoString) (h : c ∉ s) : lastIndex c s = -1 := by
  induction s with
  | nil => rfl
  | cons b bs ih =>
    have hb : ¬ b = c := fun e => h (by simp [e])
    have hbs : c ∉ bs := fun e => h (List.mem_cons_of_mem _ e)
    simp [lastIndex, ih hbs, hb]

theorem lastIndex_append_cons (c : Nat) (pre post : GoString) (h : c ∉ post) :
    lastIndex c (pre ++ c :: post) = (pre.length : Int) := by
  induction pre with
  | nil => simp [lastIndex, lastIndex_of_not_mem c post h]
  | cons b bs ih =>
    have hne : ¬ ((bs.length : Int) = -1) := by omega
    simp [lastIndex, ih, hne]

theorem exists_last_split (c : Nat) (s : GoString) (h : c ∈ s) :
    ∃ pre post, s = pre ++ c :: post ∧ c ∉ post := by
  induction s with
  | nil => simp at h
  | cons b bs ih =>
    by_cases hbs : c ∈ bs
    · obtain ⟨pre, post, e, hp⟩ := ih hbs
      exact ⟨b :: pre, post, by simp [e], hp⟩
    · have hb : c = b := by
        rcases List.mem_cons.mp h with e | e
        · exact e
        · exact absurd e hbs
      exact ⟨[], bs, by simp [hb], hbs⟩

theorem mem_of_lastIndex_ne (c : Nat) (s : GoString) (h : lastIndex c s ≠ -1) : c ∈ s := by
  by_contra hc
  exact h (lastIndex_of_not_mem c s hc)

/-! ## Unfolding `cleanTestName` -/

theorem cleanTestName_sep_end (c : Nat) (pre : GoString)
    (hc : c = slash ∨ (c = backslash ∧ slash ∉ pre)) :
    cleanTestName (pre ++ [c]) = cleanTestName pre := by
  have hi : lastIndex c (pre ++ [c]) = (pre.length : Int) :=
    lastIndex_append_cons c pre [] (by simp)
  have hne : ¬ ((pre.length : Int) = -1) := by omega
  rw [cleanTestName]
  rcases hc with rfl | ⟨rfl, hs⟩
  · simp [hi, hne]
  · have hs2 : slash ∉ pre ++ [backslash] := by simp [hs]
    simp [lastIndex_of_not_mem slash _ hs2, hi, hne]

theorem cleanTestName_slash_mid (pre post : GoString) (h : slash ∉ post) (hp : post ≠ []) :
    cleanTestName (pre ++ slash :: post) = post := by
  have hi := lastIndex_append_cons slash pre post h
  have hne : ¬ ((pre.length : Int) = -1) := by omega
  have hlen : 0 < post.length := List.length_pos.mpr hp
  have hne2 : ¬ ((pre.length : Int) = ((pre.length : Int) + ((post.length : Int) + 1)) - 1) := by
    omega
  rw [cleanTestName]
  have hd : ((pre.length : Int) + 1).toNat = pre.length + 1 := by omega
  simp only [hi, ne_eq, hne, not_false_eq_true, if_true, List.length_append, List.length_cons,
    Nat.cast_add, Nat.cast_one, hne2, if_false, hd]
  rw [List.drop_append_eq_append_drop]
  simp

theorem cleanTestName_backslash_mid (pre post : GoString) (hs : slash ∉ pre ++ backslash :: post)
    (h : backslash ∉ post) (hp : post ≠ []) :
    cleanTestName (pre ++ backslash :: post) = post := by
  have hi := lastIndex_append_cons backslash pre post h
  have hne : ¬ ((pre.length : Int) = -1) := by omega
  have hlen : 0 < post.length := List.length_pos.mpr hp
  have hne2 : ¬ ((pre.length : Int) = ((pre.length : Int) + ((post.length : Int) + 1)) - 1) := by
    omega
  rw [cleanTestName]
  have hd : ((pre.length : Int) + 1).toNat = pre.length + 1 := by omega
  simp only [lastIndex_of_not_mem slash _ hs, hi, ne_eq, hne, not_false_eq_true, if_true,
    List.length_append, List.length_cons, Nat.cast_add, Nat.cast_one, hne2, if_false, hd,
    not_true_eq_false]
  rw [List.drop_append_eq_append_drop]
  simp

theorem cleanTestName_plain (s : GoString) (hs : slash ∉ s) (hb : backslash ∉ s) :
    cleanTestName s = s := by
  rw [cleanTestName]
  simp [lastIndex_of_not_mem _ _ hs, lastIndex_of_not_mem _ _ hb]

/-! ## Facts about `join` and the loops -/

theorem join_eq_intercalate (sep : GoString) (xs : List GoString) :
    join sep xs = List.intercalate sep xs := by
  induction xs with
  | nil => rfl
  | cons x rest ih =>
    cases rest with
    | nil => simp [join, List.intercalate]
    | cons y rest =>
      rw [join, ih]
      simp [List.intercalate, List.append_assoc]

theorem foldl_names (tests : List jiraTestFailure) (acc : List GoString) :
    tests.foldl (fun names t => names ++ [t.Name]) acc = acc ++ tests.map (fun t => t.Name) := by
  induction tests generalizing acc with
  | nil => simp
  | cons t rest ih => simp [ih]

/-! ## Facts about template execution -/

theorem evalField_task (t : Task) (h : Option Host) (U : GoString)
    (tests : List jiraTestFailure) :
    evalField ⟨some t, h, U, tests⟩ ["Task", "DisplayName"] = .ok t.DisplayName ∧
    evalField ⟨some t, h, U, tests⟩ ["Task", "BuildVariant"] = .ok t.BuildVariant ∧
    evalField ⟨some t, h, U, tests⟩ ["Task", "Id"] = .ok t.Id ∧
    evalField ⟨some t, h, U, tests⟩ ["Task", "Execution"] = .ok (formatInt t.Execution) ∧
    evalField ⟨some t, h, U, tests⟩ ["Task", "Project"] = .ok t.Project := by
  simp [evalField]

theorem evalField_host (t : Option Task) (h : Host) (U : GoString)
    (tests : List jiraTestFailure) :
    evalField ⟨t, some h, U, tests⟩ ["Host", "Host"] = .ok h.Host ∧
    evalField ⟨t, some h, U, tests⟩ ["Host", "Id"] = .ok h.Id := by
  simp [evalField]

theorem evalField_user (t : Option Task) (h : Option Host) (U : GoString)
    (tests : List jiraTestFailure) :
    evalField ⟨t, h, U, tests⟩ ["UserId"] = .ok U := by
  simp [evalField]

theorem execRange_tests (tests : List jiraTestFailure) (buf : GoString) :
    execRange
      [ .text (ascii "*"), .field "Name",
        .text (ascii "* - [Logs|"), .field "URL",
        .text (ascii "] | [History|"), .field "HistoryURL",
        .text (ascii "]\n\n") ] tests buf
      = .ok (buf ++ (tests.map (fun x =>
          ascii "*" ++ x.Name ++ ascii "* - [Logs|" ++ x.URL ++ ascii "] | [History|"
            ++ x.HistoryURL ++ ascii "]\n\n")).flatten) := by
  induction tests generalizing buf with
  | nil => simp [execRange]
  | cons x rest ih =>
    simp only [execRange, execInner, evalTestField]
    simp [ih, List.append_assoc]

theorem getDescription_render (t : Task) (h : Host) (U : GoString)
    (tests : List jiraTestFailure) :
    getDescription (some t) (some h) U tests = .ok (
      ascii "\nh2. [" ++ t.DisplayName ++ ascii " failed on " ++ t.BuildVariant
        ++ (ascii "|" ++ UIRoot ++ ascii "/task/") ++ t.Id ++ ascii "/"
        ++ formatInt t.Execution
        ++ ascii "]\n\nHost: [" ++ h.Host ++ (ascii "|" ++ UIRoot ++ ascii "/host/") ++ h.Id
        ++ ascii "]\nProject: [" ++ t.Project
        ++ (ascii "|" ++ UIRoot ++ ascii "/waterfall/") ++ t.Project
        ++ ascii "]\n\n"
        ++ (tests.map (fun x =>
              ascii "*" ++ x.Name ++ ascii "* - [Logs|" ++ x.URL ++ ascii "] | [History|"
                ++ x.HistoryURL ++ ascii "]\n\n")).flatten
        ++ ascii "\n\n\n~BF Ticket Generated by [~" ++ U ++ ascii "]~\n") := by
  obtain ⟨e1, e2, e3, e4, e5⟩ := evalField_task t (some h) U tests
  obtain ⟨e6, e7⟩ := evalField_host (some t) h U tests
  have e8 := evalField_user (some t) (some h) U tests
  simp only [getDescription, DescriptionTemplate, execNodes, e1, e2, e3, e4, e5, e6, e7, e8,
    execRange_tests, if_true, List.nil_append, List.append_assoc]

theorem getDescription_nil_task (h : Option Host) (U : GoString)
    (tests : List jiraTestFailure) :
    getDescription none h U tests = .error (.nilPointer ["Task", "DisplayName"]) := by
  simp [getDescription, DescriptionTemplate, execNodes, evalField]

/-! ## Facts about the handler -/

theorem testIdSet_foldl (ids : List GoString) (m : GoString → Bool) (k : GoString) :
    ids.foldl (fun m testId => fun k => if k = testId then true else m k) m k = true
      ↔ m k = true ∨ k ∈ ids := by
  induction ids generalizing m with
  | nil => simp
  | cons id rest ih =>
    rw [List.foldl_cons, ih]
    by_cases hk : k = id
    · simp [hk]
    · simp [hk]

theorem testIdSet_iff (ids : List GoString) (k : GoString) :
    testIdSet ids k = true ↔ k ∈ ids := by
  unfold testIdSet
  rw [testIdSet_foldl]
  simp

theorem selectedFailures_foldl (t : Task) (ids : List GoString) (rs : List TestResult)
    (acc : List jiraTestFailure) :
    rs.foldl
      (fun tests test =>
        if testIdSet ids test.TestFile then
          tests ++ [{ Name := cleanTestName test.TestFile,
                      URL := test.URL,
                      HistoryURL := historyURL t (cleanTestName test.TestFile) }]
        else tests) acc
      = acc ++ (rs.filter (fun r => decide (r.TestFile ∈ ids))).map
          (fun r => { Name := cleanTestName r.TestFile, URL := r.URL,
                      HistoryURL := historyURL t (cleanTestName r.TestFile) }) := by
  induction rs generalizing acc with
  | nil => simp
  | cons r rest ih =>
    rw [List.foldl_cons, ih]
    by_cases hm : r.TestFile ∈ ids
    · have : testIdSet ids r.TestFile = true := (testIdSet_iff ids _).mpr hm
      simp [this, hm]
    · have : testIdSet ids r.TestFile = false := by
        cases hc : testIdSet ids r.TestFile with
        | false => rfl
        | true => exact absurd ((testIdSet_iff ids _).mp hc) hm
      simp [this, hm]

theorem selectedFailures_eq (t : Task) (ids : List GoString) :
    selectedFailures t ids
      = (t.TestResults.filter (fun r => decide (r.TestFile ∈ ids))).map
          (fun r => { Name := cleanTestName r.TestFile, URL := r.URL,
                      HistoryURL := historyURL t (cleanTestName r.TestFile) }) := by
  simp [selectedFailures, selectedFailures_foldl]

theorem fileTicket_no_user (env : Env) (r : Request) (hu : r.user = none) :
    fileTicket env r = decodeWrites r ++
      [.writeJSON StatusUnauthorized (.text (ascii "must be logged in to file a ticket"))] := by
  simp [fileTicket, hu, decodeWrites]

theorem fileTicket_task_error (env : Env) (r : Request) (u : User) (e : GoString)
    (hu : r.user = some u) (ht : env.findTask r.input.TaskId = .error e) :
    fileTicket env r = decodeWrites r ++
      [.findTask r.input.TaskId, .writeJSON StatusInternalServerError (.text e)] := by
  simp [fileTicket, hu, ht, decodeWrites]

theorem fileTicket_task_missing (env : Env) (r : Request) (u : User)
    (hu : r.user = some u) (ht : env.findTask r.input.TaskId = .ok none) :
    fileTicket env r = decodeWrites r ++
      [.findTask r.input.TaskId,
       .writeJSON StatusNotFound
         (.text (sprintf (ascii "task not found for id %v") [r.input.TaskId]))] := by
  simp [fileTicket, hu, ht, decodeWrites]

theorem fileTicket_host_error (env : Env) (r : Request) (u : User) (t : Task) (e : GoString)
    (hu : r.user = some u) (ht : env.findTask r.input.TaskId = .ok (some t))
    (hh : env.findHost t.HostId = .error e) :
    fileTicket env r = decodeWrites r ++
      [.findTask r.input.TaskId, .findHost t.HostId,
       .writeJSON StatusInternalServerError (.text e)] := by
  simp [fileTicket, hu, ht, hh, decodeWrites]

theorem fileTicket_host_missing (env : Env) (r : Request) (u : User) (t : Task)
    (hu : r.user = some u) (ht : env.findTask r.input.TaskId = .ok (some t))
    (hh : env.findHost t.HostId = .ok none) :
    fileTicket env r = decodeWrites r ++
      [.findTask r.input.TaskId, .findHost t.HostId,
       .writeJSON StatusInternalServerError
         (.text (sprintf (ascii "host not found for task id %v with host id: %v")
           [r.input.TaskId, t.HostId]))] := by
  simp [fileTicket, hu, ht, hh, decodeWrites]

theorem fileTicket_found (env : Env) (r : Request) (u : User) (t : Task) (h : Host)
    (hu : r.user = some u) (ht : env.findTask r.input.TaskId = .ok (some t))
    (hh : env.findHost t.HostId = .ok (some h)) :
    ∃ description,
      getDescription (some t) (some h) u.Id (selectedFailures t r.input.TestIds)
        = .ok description ∧
      fileTicket env r = decodeWrites r ++
        [.findTask r.input.TaskId, .findHost t.HostId,
         .createTicket
           (layoutRequest env t u (selectedFailures t r.input.TestIds) description),
         match env.createTicket
           (layoutRequest env t u (selectedFailures t r.input.TestIds) description) with
         | .error e =>
           .writeJSON StatusBadRequest
             (.text (sprintf (ascii "error creating JIRA ticket: %v") [e]))
         | .ok result => .writeJSON StatusOK (.ticket result)] := by
  refine ⟨_, getDescription_render t h u.Id _, ?_⟩
  simp only [fileTicket, hu, ht, hh, getDescription_render, decodeWrites]
  cases env.createTicket _ <;> simp

theorem decodeWrites_status (r : Request) (rest : List Effect) (s : Nat)
    (hrest : responseStatus rest = some s)
    (hs : r.decodeErr = none ∨ s = StatusInternalServerError) :
    responseStatus (decodeWrites r ++ rest) = some s := by
  cases hd : r.decodeErr with
  | none => simp [decodeWrites, hd, hrest]
  | some e =>
    rcases hs with hs | hs
    · simp [hd] at hs
    · simp [decodeWrites, hd, responseStatus, hs]

theorem decodeWrites_tickets (r : Request) (rest : List Effect) :
    ticketsCreated (decodeWrites r ++ rest) = ticketsCreated rest := by
  cases hd : r.decodeErr <;> simp [decodeWrites, hd, ticketsCreated]

theorem decodeWrites_lookups (r : Request) (rest : List Effect) :
    lookupsMade (decodeWrites r ++ rest) = lookupsMade rest := by
  cases hd : r.decodeErr <;> simp [decodeWrites, hd, lookupsMade]

/-! ## Claims -/

/-- C1: `getSummary` returns the task name followed by " failure" for an empty
list, the task name followed by " failures" for more than four entries, and
otherwise the entries' names in list order separated by ", ". Names a, b give
"a, b"; four entries are still joined and five are squashed. -/
theorem getSummary_spec :
    (∀ (X : GoString) (tests : List jiraTestFailure),
      (tests.length = 0 → getSummary X tests = X ++ ascii " failure") ∧
      (4 < tests.length → getSummary X tests = X ++ ascii " failures") ∧
      (1 ≤ tests.length → tests.length ≤ 4 →
        getSummary X tests = List.intercalate (ascii ", ") (tests.map (fun t => t.Name)))) ∧
    (∀ (X u v : GoString),
      getSummary X [⟨ascii "a", u, v⟩, ⟨ascii "b", u, v⟩] = ascii "a, b") ∧
    (∀ (X : GoString) (a b c d : jiraTestFailure),
      getSummary X [a, b, c, d]
        = a.Name ++ ascii ", " ++ b.Name ++ ascii ", " ++ c.Name ++ ascii ", " ++ d.Name) ∧
    (∀ (X : GoString) (a b c d e : jiraTestFailure),
      getSummary X [a, b, c, d, e] = X ++ ascii " failures") := by
  have main : ∀ (X : GoString) (tests : List jiraTestFailure),
      (tests.length = 0 → getSummary X tests = X ++ ascii " failure") ∧
      (4 < tests.length → getSummary X tests = X ++ ascii " failures") ∧
      (1 ≤ tests.length → tests.length ≤ 4 →
        getSummary X tests = List.intercalate (ascii ", ") (tests.map (fun t => t.Name))) := by
    intro X tests
    refine ⟨?_, ?_, ?_⟩
    · intro h
      simp [getSummary, h, sprintf, ascii]
    · intro h
      have h0 : ¬ tests.length = 0 := by omega
      simp [getSummary, h0, h, sprintf, ascii]
    · intro h1 h4
      have h0 : ¬ tests.length = 0 := by omega
      have h5 : ¬ tests.length > 4 := by omega
      simp only [getSummary, h0, h5, if_false, foldl_names, List.nil_append,
        join_eq_intercalate]
  refine ⟨main, ?_, ?_, ?_⟩
  · intro X u v
    rw [(main X _).2.2 (by simp) (by simp)]
    simp [List.intercalate, ascii]
  · intro X a b c d
    rw [(main X _).2.2 (by simp) (by simp)]
    simp [List.intercalate, ascii]
  · intro X a b c d e
    exact (main X _).2.1 (by simp)

/-- Witness of C1 at a one-entry list. -/
theorem getSummary_spec_witness :
    getSummary (ascii "compile") [⟨ascii "t.js", [], []⟩] = ascii "t.js" := by
  have h := (getSummary_spec.1 (ascii "compile") [⟨ascii "t.js", [], []⟩]).2.2
    (by decide) (by decide)
  simpa [List.intercalate] using h

/-- C2: for a path that does not end in a separator, `cleanTestName` returns the
final segment: the text after the last `/` when there is one, else the text
after the last `\` when there is one, else the path itself. -/
theorem cleanTestName_final_segment :
    (∀ path : GoString, path.getLast? ≠ some slash → path.getLast? ≠ some backslash →
      (slash ∈ path →
        ∃ pre, path = pre ++ slash :: cleanTestName path ∧ slash ∉ cleanTestName path) ∧
      (slash ∉ path → backslash ∈ path →
        ∃ pre, path = pre ++ backslash :: cleanTestName path ∧
          backslash ∉ cleanTestName path) ∧
      (slash ∉ path → backslash ∉ path → cleanTestName path = path)) ∧
    cleanTestName (ascii "a/b/c.js") = ascii "c.js" ∧
    cleanTestName (ascii "a\\b\\c") = ascii "c" := by
  refine ⟨?_, ?_, ?_⟩
  · intro path h1 h2
    refine ⟨?_, ?_, ?_⟩
    · intro hs
      obtain ⟨pre, post, e, hp⟩ := exists_last_split slash path hs
      have hne : post ≠ [] := by
        rintro rfl
        exact h1 (by simp [e])
      refine ⟨pre, ?_⟩
      rw [e, cleanTestName_slash_mid pre post hp hne]
      exact ⟨rfl, hp⟩
    · intro hs hb
      obtain ⟨pre, post, e, hp⟩ := exists_last_split backslash path hb
      have hne : post ≠ [] := by
        rintro rfl
        exact h2 (by simp [e])
      refine ⟨pre, ?_⟩
      rw [e, cleanTestName_backslash_mid pre post (e ▸ hs) hp hne]
      exact ⟨rfl, hp⟩
    · intro hs hb
      exact cleanTestName_plain path hs hb
  · simp [cleanTestName, lastIndex, ascii]
  · simp [cleanTestName, lastIndex, ascii]

/-- Witness of C2 at the path `dir/x`. -/
theorem cleanTestName_final_segment_witness :
    ∃ pre, ascii "dir/x" = pre ++ slash :: cleanTestName (ascii "dir/x") ∧
      slash ∉ cleanTestName (ascii "dir/x") :=
  (cleanTestName_final_segment.1 (ascii "dir/x") (by decide) (by decide)).1 (by decide)

/-- C3, as stated, fails: a path that has a `/` is cut at its last `/` only, so
a `\` after it stays in the result. -/
theorem cleanTestName_keeps_backslash :
    cleanTestName (ascii "a/b\\c") = ascii "b\\c" ∧
    ¬ (∀ path : GoString, slash ∉ cleanTestName path ∧ backslash ∉ cleanTestName path) := by
  have h : cleanTestName (ascii "a/b\\c") = ascii "b\\c" := by
    simp [cleanTestName, lastIndex, ascii]
  refine ⟨h, fun hall => ?_⟩
  have := (hall (ascii "a/b\\c")).2
  rw [h] at this
  exact this (by decide)

/-- C3, amended: the result of `cleanTestName` never contains `/`, and when the
path contains no `/` the result contains no `\` either. -/
theorem cleanTestName_no_separator (path : GoString) :
    slash ∉ cleanTestName path ∧ (slash ∉ path → backslash ∉ cleanTestName path) := by
  generalize h : path.length = n
  induction n using Nat.strong_induction_on generalizing path with
  | _ n ih =>
    by_cases hs : slash ∈ path
    · obtain ⟨pre, post, e, hp⟩ := exists_last_split slash path hs
      refine ⟨?_, fun hn => absurd hs hn⟩
      by_cases hne : post = []
      · subst hne
        rw [e, cleanTestName_sep_end slash pre (Or.inl rfl)]
        exact (ih pre.length (by simp [← h, e]) pre rfl).1
      · rw [e, cleanTestName_slash_mid pre post hp hne]
        exact hp
    · by_cases hb : backslash ∈ path
      · obtain ⟨pre, post, e, hp⟩ := exists_last_split backslash path hb
        have hpre : slash ∉ pre := fun hm => hs (by simp [e, hm])
        have hpost : slash ∉ post := fun hm => hs (by simp [e, hm])
        by_cases hne : post = []
        · subst hne
          rw [e, cleanTestName_sep_end backslash pre (Or.inr ⟨rfl, hpre⟩)]
          have := ih pre.length (by simp [← h, e]) pre rfl
          exact ⟨this.1, fun _ => this.2 hpre⟩
        · rw [e, cleanTestName_backslash_mid pre post (e ▸ hs) hp hne]
          exact ⟨hpost, fun _ => hp⟩
      · rw [cleanTestName_plain path hs hb]
        exact ⟨hs, fun _ => hb⟩

/-- Witness of amended C3 at a path in the `\` style. -/
theorem cleanTestName_no_separator_witness :
    backslash ∉ cleanTestName (ascii "a\\b\\c") :=
  (cleanTestName_no_separator (ascii "a\\b\\c")).2 (by decide)

/-- C4: a trailing `/` is stripped before the basename is taken, so appending
any number of `/` to a path does not change the result. -/
theorem cleanTestName_trailing_slash :
    (∀ p : GoString, cleanTestName (p ++ ascii "/") = cleanTestName p) ∧
    (∀ (p : GoString) (n : Nat),
      cleanTestName (p ++ List.replicate n slash) = cleanTestName p) ∧
    cleanTestName (ascii "a/b/") = cleanTestName (ascii "a/b") ∧
    cleanTestName (ascii "a/b") = ascii "b" := by
  have one : ∀ p : GoString, cleanTestName (p ++ [slash]) = cleanTestName p :=
    fun p => cleanTestName_sep_end slash p (Or.inl rfl)
  refine ⟨one, ?_, ?_, ?_⟩
  · intro p n
    induction n with
    | zero => simp
    | succ k ih => rw [List.replicate_succ', ← List.append_assoc, one, ih]
  · exact one (ascii "a/b")
  · simp [cleanTestName, lastIndex, ascii]

/-- C5: `historyURL` is UIRoot, "/task_history/", the project, "/", the display
name, "#", the test name and "=fail" in a row, with UIRoot the constant
"https://evergreen.mongodb.com"; tasks that agree on project and display name
get the same link. -/
theorem historyURL_spec :
    (∀ (t : Task) (T : GoString),
      historyURL t T = UIRoot ++ ascii "/task_history/" ++ t.Project ++ ascii "/"
        ++ t.DisplayName ++ ascii "#" ++ T ++ ascii "=fail") ∧
    UIRoot = ascii "https://evergreen.mongodb.com" ∧
    (∀ (t t' : Task) (T : GoString), t.Project = t'.Project →
      t.DisplayName = t'.DisplayName → historyURL t T = historyURL t' T) := by
  refine ⟨?_, rfl, ?_⟩
  · intro t T
    simp [historyURL, sprintf, ascii]
  · intro t t' T hP hN
    simp [historyURL, hP, hN]

/-- Witness of C5 at two tasks that differ in every other field. -/
theorem historyURL_spec_witness :
    historyURL ⟨ascii "t1", 0, ascii "compile", ascii "linux", ascii "mci", ascii "h1", []⟩
        (ascii "x.js")
      = historyURL ⟨ascii "t2", 3, ascii "compile", ascii "osx", ascii "mci", ascii "h2",
          [⟨ascii "y.js", ascii "u"⟩]⟩ (ascii "x.js") :=
  historyURL_spec.2.2 _ _ _ rfl rfl

/-- C6: for a task and a host that are not nil, `getDescription` returns no
error; the description is the heading (task, host and project lines), then
one entry per selected failure in list order holding "[Logs|URL]" and
"[History|HistoryURL]", and it closes with the line
"~BF Ticket Generated by [~U]~" naming the filing user. -/
theorem getDescription_spec (t : Task) (h : Host) (U : GoString)
    (tests : List jiraTestFailure) :
    getDescription (some t) (some h) U tests = .ok (
      ascii "\nh2. [" ++ t.DisplayName ++ ascii " failed on " ++ t.BuildVariant
        ++ (ascii "|" ++ UIRoot ++ ascii "/task/") ++ t.Id ++ ascii "/"
        ++ formatInt t.Execution
        ++ ascii "]\n\nHost: [" ++ h.Host ++ (ascii "|" ++ UIRoot ++ ascii "/host/") ++ h.Id
        ++ ascii "]\nProject: [" ++ t.Project
        ++ (ascii "|" ++ UIRoot ++ ascii "/waterfall/") ++ t.Project
        ++ ascii "]\n\n"
        ++ (tests.map (fun x =>
              ascii "*" ++ x.Name ++ ascii "* - [Logs|" ++ x.URL ++ ascii "] | [History|"
                ++ x.HistoryURL ++ ascii "]\n\n")).flatten
        ++ ascii "\n\n\n~BF Ticket Generated by [~" ++ U ++ ascii "]~\n") :=
  getDescription_render t h U tests

/-- C7, as stated, fails: for a request without a user whose body does not
decode, the handler first writes status 500 and then, going on, writes 401;
the status of the response is 500. -/
theorem anonymous_bad_body_answers_500 :
    fileTicket emptyEnv anonymousBadRequest
      = [.writeJSON 500 (.text (ascii "EOF")),
         .writeJSON 401 (.text (ascii "must be logged in to file a ticket"))] ∧
    responseStatus (fileTicket emptyEnv anonymousBadRequest) = some 500 ∧
    ¬ (∀ (env : Env) (r : Request), r.user = none →
        responseStatus (fileTicket env r) = some StatusUnauthorized) := by
  have h : fileTicket emptyEnv anonymousBadRequest
      = [.writeJSON 500 (.text (ascii "EOF")),
         .writeJSON 401 (.text (ascii "must be logged in to file a ticket"))] := by
    rw [fileTicket_no_user _ _ rfl]
    rfl
  refine ⟨h, by rw [h]; rfl, fun hall => ?_⟩
  have h401 := hall emptyEnv anonymousBadRequest rfl
  rw [h] at h401
  simp [responseStatus, StatusUnauthorized] at h401

/-- C7, amended: a request without a user whose body decodes is answered with
status 401 and nothing else is written; and for every request without a user,
whatever its body, no store lookup is made and no ticket is created. -/
theorem fileTicket_unauthenticated (env : Env) (r : Request) (hu : r.user = none) :
    (r.decodeErr = none →
      fileTicket env r
        = [.writeJSON StatusUnauthorized (.text (ascii "must be logged in to file a ticket"))] ∧
      responseStatus (fileTicket env r) = some 401) ∧
    lookupsMade (fileTicket env r) = [] ∧
    ticketsCreated (fileTicket env r) = [] := by
  rw [fileTicket_no_user env r hu]
  refine ⟨?_, ?_, ?_⟩
  · intro hd
    simp [decodeWrites, hd, responseStatus, StatusUnauthorized]
  · rw [decodeWrites_lookups]; rfl
  · rw [decodeWrites_tickets]; rfl

/-- Witness of amended C7 at a request without a user whose body decodes. -/
theorem fileTicket_unauthenticated_witness :
    responseStatus (fileTicket sampleEnv ⟨⟨ascii "t1", []⟩, none, none⟩) = some 401 ∧
    ticketsCreated (fileTicket sampleEnv ⟨⟨ascii "t1", []⟩, none, none⟩) = [] :=
  ⟨((fileTicket_unauthenticated sampleEnv ⟨⟨ascii "t1", []⟩, none, none⟩ rfl).1 rfl).2,
   (fileTicket_unauthenticated sampleEnv ⟨⟨ascii "t1", []⟩, none, none⟩ rfl).2.2⟩

/-- C8, as stated, fails: for a request of an authenticated user whose body
does not decode and whose task is unknown, the handler first writes status
500 and then, going on, writes 404; the status of the response is 500. -/
theorem unknown_task_bad_body_answers_500 :
    (responsesWritten (fileTicket emptyEnv badBodyRequest)).map Prod.fst = [500, 404] ∧
    responseStatus (fileTicket emptyEnv badBodyRequest) = some 500 ∧
    ¬ (∀ (env : Env) (r : Request) (u : User), r.user = some u →
        env.findTask r.input.TaskId = .ok none →
        responseStatus (fileTicket env r) = some StatusNotFound) := by
  have h := fileTicket_task_missing emptyEnv badBodyRequest ⟨ascii "u"⟩ rfl rfl
  refine ⟨by rw [h]; rfl, by rw [h]; rfl, fun hall => ?_⟩
  have h404 := hall emptyEnv badBodyRequest ⟨ascii "u"⟩ rfl rfl
  rw [h] at h404
  simp [decodeWrites, badBodyRequest, responseStatus, StatusNotFound,
    StatusInternalServerError] at h404

/-- C8, amended: for a request of an authenticated user whose body decodes and
whose task lookup returns no error and no task, the handler answers 404 and
creates no ticket; a task-lookup error, a host-lookup error or a missing host
yield status 500, also with no ticket created. -/
theorem fileTicket_lookup_failures (env : Env) (r : Request) (u : User)
    (hu : r.user = some u) :
    (r.decodeErr = none → env.findTask r.input.TaskId = .ok none →
      responseStatus (fileTicket env r) = some 404 ∧
      (responsesWritten (fileTicket env r)).length = 1 ∧
      ticketsCreated (fileTicket env r) = []) ∧
    (∀ e, env.findTask r.input.TaskId = .error e →
      responseStatus (fileTicket env r) = some 500 ∧
      ticketsCreated (fileTicket env r) = []) ∧
    (∀ t e, env.findTask r.input.TaskId = .ok (some t) → env.findHost t.HostId = .error e →
      responseStatus (fileTicket env r) = some 500 ∧
      ticketsCreated (fileTicket env r) = []) ∧
    (∀ t, env.findTask r.input.TaskId = .ok (some t) → env.findHost t.HostId = .ok none →
      responseStatus (fileTicket env r) = some 500 ∧
      ticketsCreated (fileTicket env r) = []) := by
  refine ⟨?_, ?_, ?_, ?_⟩
  · intro hd ht
    rw [fileTicket_task_missing env r u hu ht]
    simp [decodeWrites, hd, responseStatus, responsesWritten, ticketsCreated, StatusNotFound]
  · intro e ht
    rw [fileTicket_task_error env r u e hu ht, decodeWrites_tickets]
    exact ⟨decodeWrites_status r _ _ rfl (Or.inr rfl), rfl⟩
  · intro t e ht hh
    rw [fileTicket_host_error env r u t e hu ht hh, decodeWrites_tickets]
    exact ⟨decodeWrites_status r _ _ rfl (Or.inr rfl), rfl⟩
  · intro t ht hh
    rw [fileTicket_host_missing env r u t hu ht hh, decodeWrites_tickets]
    exact ⟨decodeWrites_status r _ _ rfl (Or.inr rfl), rfl⟩

/-- Witness of amended C8 at a request for an unknown task whose body decodes. -/
theorem fileTicket_lookup_failures_witness :
    responseStatus (fileTicket emptyEnv sampleRequest) = some 404 ∧
    (responsesWritten (fileTicket emptyEnv sampleRequest)).length = 1 ∧
    ticketsCreated (fileTicket emptyEnv sampleRequest) = [] :=
  (fileTicket_lookup_failures emptyEnv sampleRequest ⟨ascii "u"⟩ rfl).1 rfl rfl

/-- C9, at a request of an authenticated user for a known task whose body
fails to decode after the task id was read: the handler writes status 500,
goes on to look up the task and the host, asks the tracker for a ticket and
writes a second response with status 200. Two responses are written, and a
ticket is created after the error response. -/
theorem bad_body_writes_twice_and_files_ticket :
    (∃ req, fileTicket sampleEnv badBodyRequest
      = [.writeJSON 500
          (.text (ascii "json: cannot unmarshal number into Go value of type []string")),
         .findTask (ascii "t1"), .findHost (ascii "h1"), .createTicket req,
         .writeJSON 200 (.ticket ⟨ascii "BF-1"⟩)]) ∧
    (responsesWritten (fileTicket sampleEnv badBodyRequest)).map Prod.fst = [500, 200] ∧
    (ticketsCreated (fileTicket sampleEnv badBodyRequest)).length = 1 := by
  obtain ⟨desc, -, h⟩ := fileTicket_found sampleEnv badBodyRequest ⟨ascii "u"⟩ sampleTask
    ⟨ascii "h1", ascii "host1"⟩ rfl rfl rfl
  rw [h]
  exact ⟨⟨_, rfl⟩, rfl, rfl⟩

/-- C10: the failures put in a ticket are the task's test results whose
TestFile is among the requested ids, in the order of the test results, each
with Name the cleaned TestFile, the result's URL and the history link of the
cleaned name; the request's order, repeats and unmatched ids do not matter,
and there are never more failures than test results. The ticket `fileTicket`
asks for is laid out from exactly these failures. -/
theorem selectedFailures_spec :
    (∀ (t : Task) (ids : List GoString),
      selectedFailures t ids
        = (t.TestResults.filter (fun r => decide (r.TestFile ∈ ids))).map
            (fun r => { Name := cleanTestName r.TestFile, URL := r.URL,
                        HistoryURL := historyURL t (cleanTestName r.TestFile) })) ∧
    (∀ (t : Task) (ids : List GoString),
      (selectedFailures t ids).length ≤ t.TestResults.length) ∧
    (∀ (t : Task) (ids ids' : List GoString), (∀ x, x ∈ ids ↔ x ∈ ids') →
      selectedFailures t ids = selectedFailures t ids') ∧
    (∀ (env : Env) (r : Request) (u : User) (t : Task) (h : Host),
      r.user = some u → env.findTask r.input.TaskId = .ok (some t) →
      env.findHost t.HostId = .ok (some h) →
      ∃ description,
        getDescription (some t) (some h) u.Id
            ((t.TestResults.filter (fun x => decide (x.TestFile ∈ r.input.TestIds))).map
              (fun x => { Name := cleanTestName x.TestFile, URL := x.URL,
                          HistoryURL := historyURL t (cleanTestName x.TestFile) }))
          = .ok description ∧
        ticketsCreated (fileTicket env r)
          = [layoutRequest env t u
              ((t.TestResults.filter (fun x => decide (x.TestFile ∈ r.input.TestIds))).map
                (fun x => { Name := cleanTestName x.TestFile, URL := x.URL,
                            HistoryURL := historyURL t (cleanTestName x.TestFile) }))
              description]) := by
  refine ⟨selectedFailures_eq, ?_, ?_, ?_⟩
  · intro t ids
    rw [selectedFailures_eq, List.length_map]
    exact List.length_filter_le _ _
  · intro t ids ids' hiff
    rw [selectedFailures_eq, selectedFailures_eq]
    congr 2
    funext r
    simp [hiff]
  · intro env r u t h hu ht hh
    obtain ⟨desc, hd, htrace⟩ := fileTicket_found env r u t h hu ht hh
    rw [selectedFailures_eq] at hd htrace
    refine ⟨desc, hd, ?_⟩
    rw [htrace, decodeWrites_tickets]
    cases env.createTicket _ <;> rfl

/-- Witness of C10 at a request that names one test result twice and a test
the task does not have. -/
theorem selectedFailures_spec_witness :
    ∃ description,
      getDescription (some sampleTask) (some ⟨ascii "h1", ascii "host1"⟩) (ascii "u")
          ((sampleTask.TestResults.filter
              (fun x => decide (x.TestFile ∈ sampleRequest.input.TestIds))).map
            (fun x => { Name := cleanTestName x.TestFile, URL := x.URL,
                        HistoryURL := historyURL sampleTask (cleanTestName x.TestFile) }))
        = .ok description ∧
      ticketsCreated (fileTicket sampleEnv sampleRequest)
        = [layoutRequest sampleEnv sampleTask ⟨ascii "u"⟩
            ((sampleTask.TestResults.filter
                (fun x => decide (x.TestFile ∈ sampleRequest.input.TestIds))).map
              (fun x => { Name := cleanTestName x.TestFile, URL := x.URL,
                          HistoryURL := historyURL sampleTask (cleanTestName x.TestFile) }))
            description] :=
  selectedFailures_spec.2.2.2 sampleEnv sampleRequest ⟨ascii "u"⟩ sampleTask
    ⟨ascii "h1", ascii "host1"⟩ rfl rfl rfl

end BuildBaron
